import Mathlib

/-!
# Verification of the 6x6 Sudoku generator core

Shallow embedding of the puzzle-generation core of `sudoku6gen.py`:
the safety check `is_safe`, the row-major scan `find_empty`, the
randomized backtracking solver `solve_grid`, and the carving routine
`generate_puzzle`.

A grid is a total function `Nat → Nat → Nat`; the program only ever
reads and writes cells with both indices below `GRID_SIZE = 6`, and `0`
denotes an empty cell.  The Python code mutates one grid in place and
draws from a global random generator; here the grid is threaded
explicitly through the recursion, the `random.shuffle(nums)` of the solver
is modelled by a stream `shuf : Nat → List Nat` of candidate orders
(consumed one list per solver call, with the next stream index threaded
through), and the `random.randint` pairs of the carver by a stream
`pick : Nat → Nat × Nat` indexed by the attempt counter.  The solver
returns the Python boolean together with the final grid state and the
next stream index, so statements about in-place mutation (restoration
on failure, preservation of given cells) can be expressed.
-/

namespace Sudoku6

/-- `GRID_SIZE = 6` from the source. -/
def GRID_SIZE : Nat := 6

/-- `BOX_ROWS = 2` from the source. -/
def BOX_ROWS : Nat := 2

/-- `BOX_COLS = 3` from the source. -/
def BOX_COLS : Nat := 3

/-- The `DIFFICULTY_LEVELS` dict: `{"Medium": 18, "Hard": 22}`,
as a lookup function. -/
def DIFFICULTY_LEVELS (d : String) : Option Nat :=
  if d = "Medium" then some 18 else if d = "Hard" then some 22 else none

/-- A 6x6 grid of small integers, `0` meaning empty.  Only cells with
both indices `< 6` are ever touched by the program. -/
abbrev Grid := Nat → Nat → Nat

/-- The all-zero grid `np.zeros((6, 6))`. -/
def zeroGrid : Grid := fun _ _ => 0

/-- In-place assignment `grid[r, c] = v`, as a functional update. -/
def setCell (g : Grid) (r c v : Nat) : Grid :=
  fun i j => if i = r ∧ j = c then v else g i j

/-- `is_safe(grid, row, col, num)`: `num` must be absent from row `row`,
column `col`, and the 2x3 box with origin
`(BOX_ROWS * (row // BOX_ROWS), BOX_COLS * (col // BOX_COLS))`. -/
def is_safe (g : Grid) (row col num : Nat) : Bool :=
  if ((List.range GRID_SIZE).any fun j => g row j == num)
      || ((List.range GRID_SIZE).any fun i => g i col == num) then false
  else if ((List.range BOX_ROWS).any fun di =>
      (List.range BOX_COLS).any fun dj =>
        g (BOX_ROWS * (row / BOX_ROWS) + di) (BOX_COLS * (col / BOX_COLS) + dj) == num) then
    false
  else true

/-- The 36 cells of the grid in row-major scan order. -/
def cells : List (Nat × Nat) :=
  (List.range GRID_SIZE).flatMap fun i => (List.range GRID_SIZE).map fun j => (i, j)

/-- `find_empty(grid)`: first cell equal to `0` in row-major order. -/
def find_empty (g : Grid) : Option (Nat × Nat) :=
  cells.find? fun p => g p.1 p.2 == 0

/-- The candidate loop `for num in nums: ...` inside `solve_grid`.
`S` is the recursive solver call; the grid produced by a failed
recursive call is the one the backtracking assignment `grid[row, col] = 0`
is applied to, exactly as in the in-place Python code. -/
def tryNums (S : Grid → Nat → Bool × Grid × Nat) (row col : Nat) :
    List Nat → Nat → Grid → Bool × Grid × Nat
  | [], k, g => (false, g, k)
  | num :: rest, k, g =>
    if is_safe g row col num then
      let res := S (setCell g row col num) k
      if res.1 then res
      else tryNums S row col rest res.2.2 (setCell res.2.1 row col 0)
    else tryNums S row col rest k g

/-- `solve_grid(grid)` with explicit fuel (the Python recursion
terminates because every level fills one empty cell; any fuel larger
than the number of empty in-range cells behaves identically).
`shuf k` is the shuffled candidate list produced by the `k`-th call to
`random.shuffle`. -/
def solveAux (shuf : Nat → List Nat) : Nat → Nat → Grid → Bool × Grid × Nat
  | 0, k, g => (false, g, k)
  | fuel + 1, k, g =>
    match find_empty g with
    | none => (true, g, k)
    | some rc => tryNums (fun g2 k2 => solveAux shuf fuel k2 g2) rc.1 rc.2 (shuf k) (k + 1) g

/-- `solve_grid(grid)`: the returned boolean together with the final
state of the mutated grid.  Fuel `37` exceeds the at most 36 empty
cells, so it never runs out. -/
def solve_grid (shuf : Nat → List Nat) (g : Grid) : Bool × Grid :=
  ((solveAux shuf 37 0 g).1, (solveAux shuf 37 0 g).2.1)

/-- The carving `while` loop of `generate_puzzle`:
`while cells_removed < num_to_remove and attempts < 1000`, drawing the
cell `pick attempts` each iteration.  `fuel` is `1000 - attempts`;
returns the carved grid, `cells_removed`, and the final `attempts`. -/
def carveLoop (pick : Nat → Nat × Nat) (target : Nat) :
    Nat → Nat → Nat → Grid → Grid × Nat × Nat
  | 0, attempts, removed, g => (g, removed, attempts)
  | fuel + 1, attempts, removed, g =>
    if removed < target then
      let rc := pick attempts
      if g rc.1 rc.2 ≠ 0 then
        carveLoop pick target fuel (attempts + 1) (removed + 1) (setCell g rc.1 rc.2 0)
      else
        carveLoop pick target fuel (attempts + 1) removed g
    else (g, removed, attempts)

/-- `generate_puzzle(difficulty)`: solve from the all-zero grid, copy
the solution, carve the copy.  Returns
(puzzle, solution, cells_removed, attempts); the Python function
returns only the first two, the counters are exposed for the
statements about them. -/
def generate_puzzle (shuf : Nat → List Nat) (pick : Nat → Nat × Nat)
    (difficulty : String) : Grid × Grid × Nat × Nat :=
  let solved := (solve_grid shuf zeroGrid).2
  let num_to_remove := (DIFFICULTY_LEVELS difficulty).getD 18
  let res := carveLoop pick num_to_remove 1000 0 0 solved
  (res.1, solved, res.2.1, res.2.2)

/-- Number of empty (zero) in-range cells of a grid. -/
def numEmpty (g : Grid) : Nat :=
  (cells.filter fun p => g p.1 p.2 == 0).length

/-- Two in-range cells share a unit: same row, same column, or same
2x3 box (same `row / 2` and same `col / 3`). -/
def sameUnit (a b c d : Nat) : Prop :=
  a = c ∨ b = d ∨ (a / BOX_ROWS = c / BOX_ROWS ∧ b / BOX_COLS = d / BOX_COLS)

instance (a b c d : Nat) : Decidable (sameUnit a b c d) := by
  unfold sameUnit; infer_instance

/-- No-duplicate condition for one ordered pair of cells: if they share
a unit, are distinct, and the first is non-empty, their values differ. -/
def cellOK (g : Grid) (a b c d : Nat) : Prop :=
  sameUnit a b c d → (a, b) ≠ (c, d) → g a b ≠ 0 → g a b ≠ g c d

instance (g : Grid) (a b c d : Nat) : Decidable (cellOK g a b c d) := by
  unfold cellOK; infer_instance

/-- Partial validity: no row, column, or box contains a duplicate
non-zero value. -/
def validSoFar (g : Grid) : Prop :=
  ∀ a, a < 6 → ∀ b, b < 6 → ∀ c, c < 6 → ∀ d, d < 6 → cellOK g a b c d

instance (g : Grid) : Decidable (validSoFar g) := by
  unfold validSoFar; infer_instance

/-- The cells of row `r` in order. -/
def rowCells (r : Nat) : List (Nat × Nat) :=
  (List.range GRID_SIZE).map fun j => (r, j)

/-- The cells of column `c` in order. -/
def colCells (c : Nat) : List (Nat × Nat) :=
  (List.range GRID_SIZE).map fun i => (i, c)

/-- The cells of the box with origin `(BOX_ROWS * br, BOX_COLS * bc)`. -/
def boxCells (br bc : Nat) : List (Nat × Nat) :=
  (List.range BOX_ROWS).flatMap fun di =>
    (List.range BOX_COLS).map fun dj => (BOX_ROWS * br + di, BOX_COLS * bc + dj)

/-- The values a grid takes on a list of cells. -/
def unitVals (g : Grid) (L : List (Nat × Nat)) : List Nat :=
  L.map fun p => g p.1 p.2

/-- Full validity: every row, every column, and every 2x3 box contains
each value `1..6` exactly once. -/
def fullyValid (g : Grid) : Prop :=
  ∀ v, v < 7 → 1 ≤ v →
    (∀ r, r < 6 → (unitVals g (rowCells r)).count v = 1) ∧
    (∀ c, c < 6 → (unitVals g (colCells c)).count v = 1) ∧
    (∀ br, br < 3 → ∀ bc, bc < 2 → (unitVals g (boxCells br bc)).count v = 1)

/-- A fixed complete solution grid, used as the completion witness in
the termination argument for the solver. -/
def solGrid : Grid := fun i j =>
  ([[1, 2, 3, 4, 5, 6],
    [4, 5, 6, 1, 2, 3],
    [2, 1, 4, 3, 6, 5],
    [3, 6, 5, 2, 1, 4],
    [5, 3, 1, 6, 4, 2],
    [6, 4, 2, 5, 3, 1]].getD i []).getD j 0

/-- A deterministic candidate order: the unshuffled `list(range(1, 7))`. -/
def shuf0 : Nat → List Nat := fun _ => [1, 2, 3, 4, 5, 6]

/-- A deterministic cell-pick stream for the carver. -/
def pick0 : Nat → Nat × Nat := fun _ => (0, 0)

/-- A partial grid on which the solver fails: the first empty cell is
`(0, 3)`, whose row already holds `1..5` and whose column holds `6`. -/
def badGrid : Grid := fun i j =>
  ([[1, 2, 3, 0, 4, 5],
    [0, 0, 0, 6, 0, 0]].getD i []).getD j 0

/-! ## Basic lemmas about cell updates and the scan order -/

lemma setCell_same (g : Grid) (r c v : Nat) : setCell g r c v r c = v := by
  simp [setCell]

lemma setCell_other (g : Grid) (r c v i j : Nat) (h : ¬(i = r ∧ j = c)) :
    setCell g r c v i j = g i j := by
  simp [setCell, h]

lemma setCell_cancel (g : Grid) (r c v : Nat) (h : g r c = 0) :
    setCell (setCell g r c v) r c 0 = g := by
  funext i j
  by_cases hij : i = r ∧ j = c
  · obtain ⟨rfl, rfl⟩ := hij
    simp [setCell, h]
  · simp [setCell, hij]

lemma setCell_self (g : Grid) (r c : Nat) (h : g r c = 0) :
    setCell g r c 0 = g := by
  funext i j
  by_cases hij : i = r ∧ j = c
  · obtain ⟨rfl, rfl⟩ := hij
    simp [setCell, h]
  · simp [setCell, hij]

lemma mem_cells (p : Nat × Nat) : p ∈ cells ↔ p.1 < 6 ∧ p.2 < 6 := by
  obtain ⟨i, j⟩ := p
  simp only [cells, GRID_SIZE, List.mem_flatMap, List.mem_map, List.mem_range]
  constructor
  · rintro ⟨a, ha, b, hb, heq⟩
    obtain ⟨rfl, rfl⟩ := Prod.mk.injEq .. ▸ heq
    exact ⟨ha, hb⟩
  · rintro ⟨hi, hj⟩
    exact ⟨i, hi, j, hj, rfl⟩

lemma cells_nodup : cells.Nodup := by decide

lemma cells_pairwise :
    cells.Pairwise (fun p q => p.1 < q.1 ∨ (p.1 = q.1 ∧ p.2 < q.2)) := by decide

/-- `find_empty` characterization, `some` case: the returned cell is an
in-range zero cell and every earlier cell in row-major order is
non-zero. -/
lemma find_empty_some_spec (g : Grid) (r c : Nat)
    (h : find_empty g = some (r, c)) :
    r < 6 ∧ c < 6 ∧ g r c = 0 ∧
      ∀ i j, i < 6 → j < 6 → (i < r ∨ (i = r ∧ j < c)) → g i j ≠ 0 := by
  have hmem := List.mem_of_find?_eq_some h
  have hzero : g r c = 0 := by
    have := List.find?_some h
    simpa using this
  obtain ⟨hr, hc⟩ := (mem_cells (r, c)).mp hmem
  refine ⟨hr, hc, hzero, ?_⟩
  obtain ⟨-, as, bs, hsplit, hall⟩ := List.find?_eq_some.mp h
  have hPW := cells_pairwise
  rw [hsplit] at hPW
  intro i j hi hj hlt
  have hij : (i, j) ∈ cells := (mem_cells (i, j)).mpr ⟨hi, hj⟩
  rw [hsplit] at hij
  rcases List.mem_append.mp hij with hin | hin
  · have := hall _ hin
    simpa using this
  · rcases List.mem_cons.mp hin with heq | hin2
    · obtain ⟨rfl, rfl⟩ := Prod.mk.injEq .. ▸ heq
      omega
    · have hgt := ((List.pairwise_cons.mp (List.pairwise_append.mp hPW).2.1).1) _ hin2
      simp only at hgt
      omega

/-- `find_empty` characterization, `none` case. -/
lemma find_empty_none (g : Grid) :
    find_empty g = none ↔ ∀ i j, i < 6 → j < 6 → g i j ≠ 0 := by
  rw [find_empty, List.find?_eq_none]
  constructor
  · intro H i j hi hj
    have := H (i, j) ((mem_cells (i, j)).mpr ⟨hi, hj⟩)
    simpa using this
  · intro H p hp
    obtain ⟨h1, h2⟩ := (mem_cells p).mp hp
    simpa using H p.1 p.2 h1 h2

/-! ## The safety check -/

/-- `is_safe` returns `false` exactly when the candidate already occurs
in the row, the column, or the 2x3 box with origin
`(2 * (r / 2), 3 * (c / 3))`. -/
lemma is_safe_false_iff (g : Grid) (r c num : Nat) :
    is_safe g r c num = false ↔
      (∃ j, j < 6 ∧ g r j = num) ∨ (∃ i, i < 6 ∧ g i c = num) ∨
      (∃ di dj, di < 2 ∧ dj < 3 ∧ g (2 * (r / 2) + di) (3 * (c / 3) + dj) = num) := by
  unfold is_safe
  simp only [GRID_SIZE, BOX_ROWS, BOX_COLS]
  split_ifs with h1 h2
  · simp only [List.any_eq_true, List.mem_range, beq_iff_eq, Bool.or_eq_true] at h1
    refine iff_of_true rfl ?_
    rcases h1 with ⟨j, hj, he⟩ | ⟨i, hi, he⟩
    · exact Or.inl ⟨j, hj, he⟩
    · exact Or.inr (Or.inl ⟨i, hi, he⟩)
  · simp only [List.any_eq_true, List.mem_range, beq_iff_eq] at h2
    refine iff_of_true rfl ?_
    obtain ⟨di, hdi, dj, hdj, he⟩ := h2
    exact Or.inr (Or.inr ⟨di, dj, hdi, hdj, he⟩)
  · simp only [List.any_eq_true, List.mem_range, beq_iff_eq, Bool.or_eq_true,
      not_or, not_exists, not_and] at h1 h2
    refine iff_of_false (by simp) ?_
    rintro (⟨j, hj, he⟩ | ⟨i, hi, he⟩ | ⟨di, dj, hdi, hdj, he⟩)
    · exact h1.1 j hj he
    · exact h1.2 i hi he
    · exact h2 di hdi dj hdj he

/-- `is_safe` returns `true` exactly when the candidate is absent from
the row, the column, and the box. -/
lemma is_safe_true_iff (g : Grid) (r c num : Nat) :
    is_safe g r c num = true ↔
      (∀ j, j < 6 → g r j ≠ num) ∧ (∀ i, i < 6 → g i c ≠ num) ∧
      (∀ di dj, di < 2 → dj < 3 → g (2 * (r / 2) + di) (3 * (c / 3) + dj) ≠ num) := by
  rw [show (is_safe g r c num = true) ↔ ¬(is_safe g r c num = false) by
    cases is_safe g r c num <;> simp]
  rw [is_safe_false_iff]
  push_neg
  constructor
  · rintro ⟨ha, hb, hc⟩
    exact ⟨fun j hj => ha j hj, fun i hi => hb i hi, fun di dj h2 h3 => hc di dj h2 h3⟩
  · rintro ⟨ha, hb, hc⟩
    exact ⟨fun j hj => ha j hj, fun i hi => hb i hi, fun di dj h2 h3 => hc di dj h2 h3⟩

/-! ## Partial validity is preserved by safe placements and by clearing -/

/-- Placing a value that `is_safe` accepts preserves partial validity. -/
lemma valid_place (g : Grid) (r c num : Nat) (hv : validSoFar g)
    (hs : is_safe g r c num = true) : validSoFar (setCell g r c num) := by
  obtain ⟨hrow, hcol, hbox⟩ := (is_safe_true_iff g r c num).mp hs
  intro a ha b hb p hp q hq
  unfold cellOK
  intro hsu hne hnz
  unfold sameUnit BOX_ROWS BOX_COLS at hsu
  by_cases h1 : a = r ∧ b = c
  · obtain ⟨rfl, rfl⟩ := h1
    have h2 : ¬(p = a ∧ q = b) := by
      rintro ⟨rfl, rfl⟩; exact hne rfl
    rw [setCell_same] at hnz ⊢
    rw [setCell_other g a b num p q (by tauto)]
    rcases hsu with rfl | rfl | ⟨e1, e2⟩
    · exact fun he => hrow q hq he.symm
    · exact fun he => hcol p hp he.symm
    · have u1 : 2 * (a / 2) + p % 2 = p := by omega
      have u2 : 3 * (b / 3) + q % 3 = q := by omega
      have := hbox (p % 2) (q % 3) (by omega) (by omega)
      rw [u1, u2] at this
      exact fun he => this he.symm
  · rw [setCell_other g r c num a b h1] at hnz ⊢
    by_cases h2 : p = r ∧ q = c
    · obtain ⟨rfl, rfl⟩ := h2
      rw [setCell_same]
      rcases hsu with rfl | rfl | ⟨e1, e2⟩
      · exact hrow b hb
      · exact hcol a ha
      · have u1 : 2 * (p / 2) + a % 2 = a := by omega
        have u2 : 3 * (q / 3) + b % 3 = b := by omega
        have := hbox (a % 2) (b % 3) (by omega) (by omega)
        rw [u1, u2] at this
        exact this
    · rw [setCell_other g r c num p q h2]
      exact hv a ha b hb p hp q hq (by unfold sameUnit BOX_ROWS BOX_COLS; tauto) hne hnz

/-- Clearing any cell preserves partial validity. -/
lemma valid_clear (g : Grid) (r c : Nat) (hv : validSoFar g) :
    validSoFar (setCell g r c 0) := by
  intro a ha b hb p hp q hq
  unfold cellOK
  intro hsu hne hnz
  by_cases h1 : a = r ∧ b = c
  · obtain ⟨rfl, rfl⟩ := h1
    rw [setCell_same] at hnz
    exact absurd rfl hnz
  · rw [setCell_other g r c 0 a b h1] at hnz ⊢
    by_cases h2 : p = r ∧ q = c
    · obtain ⟨rfl, rfl⟩ := h2
      rw [setCell_same]
      exact hnz
    · rw [setCell_other g r c 0 p q h2]
      exact hv a ha b hb p hp q hq hsu hne hnz

/-! ## Counting empty cells -/

lemma filter_length_update {α : Type} [DecidableEq α] (p q : α → Bool) (a : α) :
    ∀ l : List α, l.Nodup → a ∈ l → (∀ x ∈ l, x ≠ a → p x = q x) →
      p a = true → q a = false →
      (l.filter p).length = (l.filter q).length + 1 := by
  intro l
  induction l with
  | nil => intro _ h; simp at h
  | cons x xs ih =>
    intro hnd hmem hagree hpa hqa
    have hnd2 := List.nodup_cons.mp hnd
    rcases List.mem_cons.mp hmem with rfl | hmem2
    · have hsame : xs.filter p = xs.filter q := by
        apply List.filter_congr
        intro y hy
        exact hagree y (List.mem_cons_of_mem _ hy) (fun he => hnd2.1 (he ▸ hy))
      rw [List.filter_cons, List.filter_cons, if_pos hpa, if_neg (by simp [hqa]), hsame]
      simp
    · have hx : x ≠ a := fun he => hnd2.1 (he ▸ hmem2)
      have hpx := hagree x (List.mem_cons_self x xs) hx
      have hrec := ih hnd2.2 hmem2
        (fun y hy => hagree y (List.mem_cons_of_mem _ hy)) hpa hqa
      rw [List.filter_cons, List.filter_cons, ← hpx]
      by_cases hb : p x = true
      · rw [if_pos hb, if_pos hb]
        simp [hrec]
      · rw [if_neg hb, if_neg hb]
        exact hrec

/-- Filling an in-range empty cell with a non-zero value decreases the
number of empty cells by one. -/
lemma numEmpty_set (g : Grid) (r c v : Nat) (hr : r < 6) (hc : c < 6)
    (h0 : g r c = 0) (hv : v ≠ 0) :
    numEmpty g = numEmpty (setCell g r c v) + 1 := by
  unfold numEmpty
  apply filter_length_update _ _ (r, c) cells cells_nodup
    ((mem_cells (r, c)).mpr ⟨hr, hc⟩)
  · intro x _ hne
    have hx : ¬(x.1 = r ∧ x.2 = c) := by
      rintro ⟨e1, e2⟩
      exact hne (Prod.ext e1 e2)
    rw [setCell_other g r c v x.1 x.2 hx]
  · simp [h0]
  · simp [setCell_same, hv]

/-- Clearing an in-range non-zero cell increases the number of empty
cells by one. -/
lemma numEmpty_clear (g : Grid) (r c : Nat) (hr : r < 6) (hc : c < 6)
    (h0 : g r c ≠ 0) :
    numEmpty (setCell g r c 0) = numEmpty g + 1 := by
  unfold numEmpty
  apply filter_length_update _ _ (r, c) cells cells_nodup
    ((mem_cells (r, c)).mpr ⟨hr, hc⟩)
  · intro x _ hne
    have hx : ¬(x.1 = r ∧ x.2 = c) := by
      rintro ⟨e1, e2⟩
      exact hne (Prod.ext e1 e2)
    rw [setCell_other g r c 0 x.1 x.2 hx]
  · simp [setCell_same]
  · simp [h0]

/-! ## The backtracking solver: state facts -/

/-- Relation between the grid a solver call starts from and the
(result, grid, stream index) it returns: on failure the grid is
restored exactly; non-zero cells are never overwritten; partial
validity is preserved; on success the final grid has no empty cell. -/
def solveOut (gin : Grid) (res : Bool × Grid × Nat) : Prop :=
  (res.1 = false → res.2.1 = gin) ∧
  (∀ i j, gin i j ≠ 0 → res.2.1 i j = gin i j) ∧
  (validSoFar gin → validSoFar res.2.1) ∧
  (res.1 = true → find_empty res.2.1 = none)

lemma solveAux_spec (shuf : Nat → List Nat) :
    ∀ fuel k g, solveOut g (solveAux shuf fuel k g) := by
  intro fuel
  induction fuel with
  | zero =>
    intro k g
    exact ⟨fun _ => rfl, fun i j _ => rfl, fun h => h, fun h => by simp [solveAux] at h⟩
  | succ fuel ih =>
    intro k g
    cases hfe : find_empty g with
    | none =>
      refine ⟨fun h => ?_, fun i j _ => ?_, fun h => ?_, fun _ => ?_⟩ <;>
        simp [solveAux, hfe]
      · exact h
    | some rc =>
      obtain ⟨row, col⟩ := rc
      have h0 : g row col = 0 := (find_empty_some_spec g row col hfe).2.2.1
      have key : ∀ nums k2 g2, g2 row col = 0 →
          solveOut g2 (tryNums (fun g3 k3 => solveAux shuf fuel k3 g3)
            row col nums k2 g2) := by
        intro nums
        induction nums with
        | nil =>
          intro k2 g2 _
          exact ⟨fun _ => rfl, fun i j _ => rfl, fun h => h, fun h => by simp [tryNums] at h⟩
        | cons num rest ihn =>
          intro k2 g2 h02
          by_cases hs : is_safe g2 row col num = true
          · rcases hres : solveAux shuf fuel k2 (setCell g2 row col num) with ⟨b, gg, kk⟩
            have ihr := ih k2 (setCell g2 row col num)
            rw [hres] at ihr
            cases b with
            | true =>
              have heq : tryNums (fun g3 k3 => solveAux shuf fuel k3 g3)
                  row col (num :: rest) k2 g2 = (true, gg, kk) := by
                simp [tryNums, hs, hres]
              rw [heq]
              refine ⟨by simp, ?_, ?_, ?_⟩
              · intro i j hnz
                have hne : ¬(i = row ∧ j = col) := by
                  rintro ⟨rfl, rfl⟩; exact hnz h02
                have h2 := ihr.2.1 i j
                  (by rw [setCell_other g2 row col num i j hne]; exact hnz)
                rw [setCell_other g2 row col num i j hne] at h2
                exact h2
              · intro hvg
                exact ihr.2.2.1 (valid_place g2 row col num hvg hs)
              · intro _
                exact ihr.2.2.2 rfl
            | false =>
              have hgg : gg = setCell g2 row col num := ihr.1 rfl
              have heq : tryNums (fun g3 k3 => solveAux shuf fuel k3 g3)
                  row col (num :: rest) k2 g2 =
                  tryNums (fun g3 k3 => solveAux shuf fuel k3 g3) row col rest kk g2 := by
                simp [tryNums, hs, hres, hgg, setCell_cancel g2 row col num h02]
              rw [heq]
              exact ihn kk g2 h02
          · have heq : tryNums (fun g3 k3 => solveAux shuf fuel k3 g3)
                row col (num :: rest) k2 g2 =
                tryNums (fun g3 k3 => solveAux shuf fuel k3 g3) row col rest k2 g2 := by
              simp [tryNums, hs]
            rw [heq]
            exact ihn k2 g2 h02
      have hmain : solveAux shuf (fuel + 1) k g =
          tryNums (fun g3 k3 => solveAux shuf fuel k3 g3) row col (shuf k) (k + 1) g := by
        simp [solveAux, hfe]
      rw [hmain]
      exact key (shuf k) (k + 1) g h0

/-- If every shuffled list only offers values `≤ 6`, the solver keeps
all cell values `≤ 6`. -/
lemma solveAux_le6 (shuf : Nat → List Nat) (H6 : ∀ k v, v ∈ shuf k → v ≤ 6) :
    ∀ fuel k g, (∀ i j, g i j ≤ 6) → ∀ i j, (solveAux shuf fuel k g).2.1 i j ≤ 6 := by
  intro fuel
  induction fuel with
  | zero => intro k g hg i j; exact hg i j
  | succ fuel ih =>
    intro k g hg
    cases hfe : find_empty g with
    | none => intro i j; simpa [solveAux, hfe] using hg i j
    | some rc =>
      obtain ⟨row, col⟩ := rc
      have hmain : solveAux shuf (fuel + 1) k g =
          tryNums (fun g3 k3 => solveAux shuf fuel k3 g3) row col (shuf k) (k + 1) g := by
        simp [solveAux, hfe]
      rw [hmain]
      have key : ∀ nums, (∀ v ∈ nums, v ≤ 6) → ∀ k2 g2, (∀ i j, g2 i j ≤ 6) →
          ∀ i j, (tryNums (fun g3 k3 => solveAux shuf fuel k3 g3)
            row col nums k2 g2).2.1 i j ≤ 6 := by
        intro nums
        induction nums with
        | nil => intro _ k2 g2 hg2 i j; exact hg2 i j
        | cons num rest ihn =>
          intro hb k2 g2 hg2
          by_cases hs : is_safe g2 row col num = true
          · have hset : ∀ i j, setCell g2 row col num i j ≤ 6 := by
              intro i j
              by_cases hij : i = row ∧ j = col
              · obtain ⟨rfl, rfl⟩ := hij
                rw [setCell_same]
                exact hb num (List.mem_cons_self num rest)
              · rw [setCell_other g2 row col num i j hij]
                exact hg2 i j
            rcases hres : solveAux shuf fuel k2 (setCell g2 row col num) with ⟨b, gg, kk⟩
            have hgg : ∀ i j, gg i j ≤ 6 := by
              have h2 := ih k2 (setCell g2 row col num) hset
              rw [hres] at h2
              exact h2
            cases b with
            | true =>
              have heq : tryNums (fun g3 k3 => solveAux shuf fuel k3 g3)
                  row col (num :: rest) k2 g2 = (true, gg, kk) := by
                simp [tryNums, hs, hres]
              rw [heq]
              exact hgg
            | false =>
              have heq : tryNums (fun g3 k3 => solveAux shuf fuel k3 g3)
                  row col (num :: rest) k2 g2 =
                  tryNums (fun g3 k3 => solveAux shuf fuel k3 g3) row col rest kk
                    (setCell gg row col 0) := by
                simp [tryNums, hs, hres]
              rw [heq]
              apply ihn (fun v hv => hb v (List.mem_cons_of_mem num hv)) kk
              intro i j
              by_cases hij : i = row ∧ j = col
              · obtain ⟨rfl, rfl⟩ := hij
                rw [setCell_same]
                omega
              · rw [setCell_other gg row col 0 i j hij]
                exact hgg i j
          · have heq : tryNums (fun g3 k3 => solveAux shuf fuel k3 g3)
                row col (num :: rest) k2 g2 =
                tryNums (fun g3 k3 => solveAux shuf fuel k3 g3) row col rest k2 g2 := by
              simp [tryNums, hs]
            rw [heq]
            exact ihn (fun v hv => hb v (List.mem_cons_of_mem num hv)) k2 g2 hg2
      exact key (shuf k) (fun v hv => H6 k v hv) (k + 1) g hg

/-- Completeness of the backtracking search: if the current grid can be
extended to some fully valid grid `f` and every shuffled list offers
every value `1..6`, the solver succeeds (given enough fuel). -/
lemma solveAux_complete (shuf : Nat → List Nat) (f : Grid)
    (hfv : validSoFar f) (hfb : ∀ i j, i < 6 → j < 6 → 1 ≤ f i j ∧ f i j ≤ 6)
    (Hmem : ∀ k v, 1 ≤ v → v ≤ 6 → v ∈ shuf k) :
    ∀ fuel k g, (∀ i j, g i j ≠ 0 → f i j = g i j) → numEmpty g < fuel →
      (solveAux shuf fuel k g).1 = true := by
  intro fuel
  induction fuel with
  | zero => intro k g _ h; omega
  | succ fuel ih =>
    intro k g hext hfuel
    cases hfe : find_empty g with
    | none => simp [solveAux, hfe]
    | some rc =>
      obtain ⟨row, col⟩ := rc
      obtain ⟨hr, hc, h0, -⟩ := find_empty_some_spec g row col hfe
      have hv1 := (hfb row col hr hc).1
      have hv6 := (hfb row col hr hc).2
      have hsafe : is_safe g row col (f row col) = true := by
        rw [is_safe_true_iff]
        refine ⟨?_, ?_, ?_⟩
        · intro j hj he
          have hne : j ≠ col := by
            intro hjc
            rw [hjc] at he
            omega
          have hfj : f row j = g row j := hext row j (by omega)
          have h2 := hfv row hr j hj row hr col hc (Or.inl rfl)
            (by simp [Prod.ext_iff, hne]) (by rw [hfj, he]; omega)
          rw [hfj, he] at h2
          exact h2 rfl
        · intro i hi he
          have hne : i ≠ row := by
            intro hir
            rw [hir] at he
            omega
          have hfi : f i col = g i col := hext i col (by omega)
          have h2 := hfv i hi col hc row hr col hc (Or.inr (Or.inl rfl))
            (by simp [Prod.ext_iff, hne]) (by rw [hfi, he]; omega)
          rw [hfi, he] at h2
          exact h2 rfl
        · intro di dj hdi hdj he
          have hi : 2 * (row / 2) + di < 6 := by omega
          have hj : 3 * (col / 3) + dj < 6 := by omega
          have hne : ¬(2 * (row / 2) + di = row ∧ 3 * (col / 3) + dj = col) := by
            rintro ⟨e1, e2⟩
            rw [e1, e2] at he
            omega
          have hfb2 : f (2 * (row / 2) + di) (3 * (col / 3) + dj) =
              g (2 * (row / 2) + di) (3 * (col / 3) + dj) :=
            hext _ _ (by omega)
          have h2 := hfv (2 * (row / 2) + di) hi (3 * (col / 3) + dj) hj row hr col hc
            (Or.inr (Or.inr (by unfold BOX_ROWS BOX_COLS; omega)))
            (by simp [Prod.ext_iff]; omega) (by rw [hfb2, he]; omega)
          rw [hfb2, he] at h2
          exact h2 rfl
      have hmain : solveAux shuf (fuel + 1) k g =
          tryNums (fun g3 k3 => solveAux shuf fuel k3 g3) row col (shuf k) (k + 1) g := by
        simp [solveAux, hfe]
      rw [hmain]
      have key : ∀ nums k2, f row col ∈ nums →
          (tryNums (fun g3 k3 => solveAux shuf fuel k3 g3) row col nums k2 g).1 = true := by
        intro nums
        induction nums with
        | nil => intro k2 h; simp at h
        | cons num rest ihn =>
          intro k2 hvm
          by_cases heqv : num = f row col
          · subst heqv
            have hrec : (solveAux shuf fuel k2 (setCell g row col (f row col))).1 = true := by
              apply ih k2
              · intro i j hnz
                by_cases hij : i = row ∧ j = col
                · obtain ⟨rfl, rfl⟩ := hij
                  rw [setCell_same]
                · rw [setCell_other g row col (f row col) i j hij] at hnz ⊢
                  exact hext i j hnz
              · have h3 := numEmpty_set g row col (f row col) hr hc h0 (by omega)
                omega
            rcases hres : solveAux shuf fuel k2 (setCell g row col (f row col)) with ⟨b, gg, kk⟩
            rw [hres] at hrec
            have hb : b = true := hrec
            subst hb
            simp [tryNums, hsafe, hres]
          · by_cases hs : is_safe g row col num = true
            · rcases hres : solveAux shuf fuel k2 (setCell g row col num) with ⟨b, gg, kk⟩
              cases b with
              | true => simp [tryNums, hs, hres]
              | false =>
                have hspec := solveAux_spec shuf fuel k2 (setCell g row col num)
                rw [hres] at hspec
                have hgg : gg = setCell g row col num := hspec.1 rfl
                have heq : tryNums (fun g3 k3 => solveAux shuf fuel k3 g3)
                    row col (num :: rest) k2 g =
                    tryNums (fun g3 k3 => solveAux shuf fuel k3 g3) row col rest kk g := by
                  simp [tryNums, hs, hres, hgg, setCell_cancel g row col num h0]
                rw [heq]
                apply ihn kk
                rcases List.mem_cons.mp hvm with h | h
                · exact absurd h.symm heqv
                · exact h
            · have heq : tryNums (fun g3 k3 => solveAux shuf fuel k3 g3)
                  row col (num :: rest) k2 g =
                  tryNums (fun g3 k3 => solveAux shuf fuel k3 g3) row col rest k2 g := by
                simp [tryNums, hs]
              rw [heq]
              apply ihn k2
              rcases List.mem_cons.mp hvm with h | h
              · rw [h] at hsafe
                exact absurd hsafe hs
              · exact h
      exact key (shuf k) (k + 1) (Hmem k (f row col) hv1 hv6)

/-! ## From pairwise distinctness to exact counts -/

/-- Six distinct values in `1..6` hit every value of `1..6` exactly
once. -/
lemma count_units (l : List Nat) (hlen : l.length = 6) (hnd : l.Nodup)
    (hmem : ∀ x ∈ l, 1 ≤ x ∧ x ≤ 6) (v : Nat) (h1 : 1 ≤ v) (h6 : v ≤ 6) :
    l.count v = 1 := by
  have hle : l.count v ≤ 1 := List.nodup_iff_count_le_one.mp hnd v
  have hsub : l.toFinset ⊆ Finset.Icc 1 6 := by
    intro x hx
    rw [List.mem_toFinset] at hx
    exact Finset.mem_Icc.mpr (hmem x hx)
  have hcard : (Finset.Icc 1 6).card ≤ l.toFinset.card := by
    rw [List.toFinset_card_of_nodup hnd, hlen, Nat.card_Icc]
  have heq := Finset.eq_of_subset_of_card_le hsub hcard
  have hv : v ∈ l.toFinset := by
    rw [heq]
    exact Finset.mem_Icc.mpr ⟨h1, h6⟩
  have hpos := List.count_pos_iff.mpr (List.mem_toFinset.mp hv)
  omega

/-- On a full, value-bounded, partially valid grid, any six pairwise
unit-sharing distinct cells carry each value `1..6` exactly once. -/
lemma unit_count_one (g : Grid) (L : List (Nat × Nat)) (hv : validSoFar g)
    (hlen : L.length = 6) (hnd : L.Nodup)
    (hin : ∀ p ∈ L, p.1 < 6 ∧ p.2 < 6)
    (hsu : ∀ p ∈ L, ∀ q ∈ L, sameUnit p.1 p.2 q.1 q.2)
    (hnz : ∀ i j, i < 6 → j < 6 → g i j ≠ 0)
    (hle : ∀ i j, i < 6 → j < 6 → g i j ≤ 6)
    (v : Nat) (h1 : 1 ≤ v) (h6 : v ≤ 6) :
    (unitVals g L).count v = 1 := by
  apply count_units _ (by simp [unitVals, hlen]) ?_ ?_ v h1 h6
  · apply List.Nodup.map_on ?_ hnd
    intro p hp q hq he
    by_contra hne
    obtain ⟨hp1, hp2⟩ := hin p hp
    obtain ⟨hq1, hq2⟩ := hin q hq
    have hu := hsu p hp q hq
    obtain ⟨a, b⟩ := p
    obtain ⟨c2, d2⟩ := q
    exact hv a hp1 b hp2 c2 hq1 d2 hq2 hu hne (hnz a b hp1 hp2) he
  · intro x hx
    obtain ⟨p, hp, rfl⟩ := List.mem_map.mp hx
    obtain ⟨hp1, hp2⟩ := hin p hp
    have := hnz p.1 p.2 hp1 hp2
    have := hle p.1 p.2 hp1 hp2
    omega

lemma boxCells_eq (br bc : Nat) :
    boxCells br bc =
      [(2 * br, 3 * bc), (2 * br, 3 * bc + 1), (2 * br, 3 * bc + 2),
       (2 * br + 1, 3 * bc), (2 * br + 1, 3 * bc + 1), (2 * br + 1, 3 * bc + 2)] := by
  rfl

lemma boxCells_nodup (br bc : Nat) : (boxCells br bc).Nodup := by
  rw [boxCells_eq]
  simp [Prod.ext_iff]

lemma mem_boxCells (br bc : Nat) (hbr : br < 3) (hbc : bc < 2) (p : Nat × Nat)
    (hp : p ∈ boxCells br bc) :
    p.1 < 6 ∧ p.2 < 6 ∧ p.1 / 2 = br ∧ p.2 / 3 = bc := by
  rw [boxCells_eq] at hp
  simp only [List.mem_cons, List.not_mem_nil, or_false] at hp
  rcases hp with rfl | rfl | rfl | rfl | rfl | rfl <;>
    refine ⟨by dsimp only; omega, by dsimp only; omega,
      by dsimp only; omega, by dsimp only; omega⟩

/-- A partially valid grid with no empty in-range cell and all values
`≤ 6` is fully valid. -/
lemma fullyValid_of (g : Grid) (hv : validSoFar g)
    (hnz : ∀ i j, i < 6 → j < 6 → g i j ≠ 0)
    (hle : ∀ i j, i < 6 → j < 6 → g i j ≤ 6) : fullyValid g := by
  intro v hv7 hv1
  have h6 : v ≤ 6 := by omega
  refine ⟨?_, ?_, ?_⟩
  · intro r hr
    apply unit_count_one g (rowCells r) hv ?_ ?_ ?_ ?_ hnz hle v hv1 h6
    · simp [rowCells, GRID_SIZE]
    · apply List.Nodup.map_on ?_ (List.nodup_range _)
      intro x _ y _ he
      simpa [Prod.ext_iff] using he
    · intro p hp
      simp only [rowCells, GRID_SIZE, List.mem_map, List.mem_range] at hp
      obtain ⟨j, hj, rfl⟩ := hp
      exact ⟨hr, hj⟩
    · intro p hp q hq
      simp only [rowCells, GRID_SIZE, List.mem_map, List.mem_range] at hp hq
      obtain ⟨j, hj, rfl⟩ := hp
      obtain ⟨j2, hj2, rfl⟩ := hq
      exact Or.inl rfl
  · intro c hc
    apply unit_count_one g (colCells c) hv ?_ ?_ ?_ ?_ hnz hle v hv1 h6
    · simp [colCells, GRID_SIZE]
    · apply List.Nodup.map_on ?_ (List.nodup_range _)
      intro x _ y _ he
      simpa [Prod.ext_iff] using he
    · intro p hp
      simp only [colCells, GRID_SIZE, List.mem_map, List.mem_range] at hp
      obtain ⟨i, hi, rfl⟩ := hp
      exact ⟨hi, hc⟩
    · intro p hp q hq
      simp only [colCells, GRID_SIZE, List.mem_map, List.mem_range] at hp hq
      obtain ⟨i, hi, rfl⟩ := hp
      obtain ⟨i2, hi2, rfl⟩ := hq
      exact Or.inr (Or.inl rfl)
  · intro br hbr bc hbc
    apply unit_count_one g (boxCells br bc) hv ?_ (boxCells_nodup br bc) ?_ ?_
      hnz hle v hv1 h6
    · rw [boxCells_eq]
      rfl
    · intro p hp
      have h2 := mem_boxCells br bc hbr hbc p hp
      exact ⟨h2.1, h2.2.1⟩
    · intro p hp q hq
      have h2 := mem_boxCells br bc hbr hbc p hp
      have h3 := mem_boxCells br bc hbr hbc q hq
      refine Or.inr (Or.inr ?_)
      unfold BOX_ROWS BOX_COLS
      omega

/-! ## The carving loop -/

lemma carveLoop_removed_le (pick : Nat → Nat × Nat) (target : Nat) :
    ∀ fuel attempts removed g, removed ≤ target →
      (carveLoop pick target fuel attempts removed g).2.1 ≤ target := by
  intro fuel
  induction fuel with
  | zero => intro attempts removed g h; exact h
  | succ fuel ih =>
    intro attempts removed g h
    by_cases hlt : removed < target
    · simp only [carveLoop, if_pos hlt]
      by_cases hnz : g (pick attempts).1 (pick attempts).2 ≠ 0
      · rw [if_pos hnz]
        exact ih (attempts + 1) (removed + 1) _ (by omega)
      · rw [if_neg hnz]
        exact ih (attempts + 1) removed g h
    · simp only [carveLoop, if_neg hlt]
      exact h

lemma carveLoop_attempts_le (pick : Nat → Nat × Nat) (target : Nat) :
    ∀ fuel attempts removed g,
      (carveLoop pick target fuel attempts removed g).2.2 ≤ attempts + fuel := by
  intro fuel
  induction fuel with
  | zero => intro attempts removed g; simp [carveLoop]
  | succ fuel ih =>
    intro attempts removed g
    by_cases hlt : removed < target
    · simp only [carveLoop, if_pos hlt]
      by_cases hnz : g (pick attempts).1 (pick attempts).2 ≠ 0
      · rw [if_pos hnz]
        have := ih (attempts + 1) (removed + 1) (setCell g (pick attempts).1 (pick attempts).2 0)
        omega
      · rw [if_neg hnz]
        have := ih (attempts + 1) removed g
        omega
    · simp only [carveLoop, if_neg hlt]
      omega

/-- The loop stops only because the target is reached or the attempt
budget is exhausted. -/
lemma carveLoop_stop (pick : Nat → Nat × Nat) (target : Nat) :
    ∀ fuel attempts removed g, removed ≤ target →
      (carveLoop pick target fuel attempts removed g).2.1 = target ∨
      (carveLoop pick target fuel attempts removed g).2.2 = attempts + fuel := by
  intro fuel
  induction fuel with
  | zero => intro attempts removed g _; right; rfl
  | succ fuel ih =>
    intro attempts removed g h
    by_cases hlt : removed < target
    · simp only [carveLoop, if_pos hlt]
      by_cases hnz : g (pick attempts).1 (pick attempts).2 ≠ 0
      · rw [if_pos hnz]
        rcases ih (attempts + 1) (removed + 1)
            (setCell g (pick attempts).1 (pick attempts).2 0) (by omega) with h2 | h2
        · exact Or.inl h2
        · right; omega
      · rw [if_neg hnz]
        rcases ih (attempts + 1) removed g h with h2 | h2
        · exact Or.inl h2
        · right; omega
    · simp only [carveLoop, if_neg hlt]
      left; omega

/-- The carver only ever clears cells: every cell of the carved grid
holds its original value or `0`. -/
lemma carveLoop_keep (pick : Nat → Nat × Nat) (target : Nat) :
    ∀ fuel attempts removed g i j,
      (carveLoop pick target fuel attempts removed g).1 i j = g i j ∨
      (carveLoop pick target fuel attempts removed g).1 i j = 0 := by
  intro fuel
  induction fuel with
  | zero => intro attempts removed g i j; left; rfl
  | succ fuel ih =>
    intro attempts removed g i j
    by_cases hlt : removed < target
    · simp only [carveLoop, if_pos hlt]
      by_cases hnz : g (pick attempts).1 (pick attempts).2 ≠ 0
      · rw [if_pos hnz]
        rcases ih (attempts + 1) (removed + 1)
            (setCell g (pick attempts).1 (pick attempts).2 0) i j with h2 | h2
        · by_cases hij : i = (pick attempts).1 ∧ j = (pick attempts).2
          · obtain ⟨rfl, rfl⟩ := hij
            rw [setCell_same] at h2
            exact Or.inr h2
          · rw [setCell_other g (pick attempts).1 (pick attempts).2 0 i j hij] at h2
            exact Or.inl h2
        · exact Or.inr h2
      · rw [if_neg hnz]
        exact ih (attempts + 1) removed g i j
    · simp [carveLoop, hlt]

/-- When the picks are in range and the zero count equals the removal
counter at entry, the same holds of the result. -/
lemma carveLoop_zeros (pick : Nat → Nat × Nat) (target : Nat)
    (Hpick : ∀ k2, (pick k2).1 < 6 ∧ (pick k2).2 < 6) :
    ∀ fuel attempts removed g, numEmpty g = removed →
      numEmpty (carveLoop pick target fuel attempts removed g).1 =
        (carveLoop pick target fuel attempts removed g).2.1 := by
  intro fuel
  induction fuel with
  | zero => intro attempts removed g h; exact h
  | succ fuel ih =>
    intro attempts removed g h
    by_cases hlt : removed < target
    · simp only [carveLoop, if_pos hlt]
      by_cases hnz : g (pick attempts).1 (pick attempts).2 ≠ 0
      · rw [if_pos hnz]
        apply ih (attempts + 1) (removed + 1)
        rw [numEmpty_clear g (pick attempts).1 (pick attempts).2
          (Hpick attempts).1 (Hpick attempts).2 hnz, h]
      · rw [if_neg hnz]
        exact ih (attempts + 1) removed g h
    · simp only [carveLoop, if_neg hlt]
      exact h

/-- Carving preserves partial validity. -/
lemma carveLoop_valid (pick : Nat → Nat × Nat) (target : Nat) :
    ∀ fuel attempts removed g, validSoFar g →
      validSoFar (carveLoop pick target fuel attempts removed g).1 := by
  intro fuel
  induction fuel with
  | zero => intro attempts removed g h; exact h
  | succ fuel ih =>
    intro attempts removed g h
    by_cases hlt : removed < target
    · simp only [carveLoop, if_pos hlt]
      by_cases hnz : g (pick attempts).1 (pick attempts).2 ≠ 0
      · rw [if_pos hnz]
        exact ih (attempts + 1) (removed + 1) _
          (valid_clear g (pick attempts).1 (pick attempts).2 h)
      · rw [if_neg hnz]
        exact ih (attempts + 1) removed g h
    · simp only [carveLoop, if_neg hlt]
      exact h

/-! ## Assembly -/

lemma numEmpty_zero_of_none (g : Grid) (h : find_empty g = none) :
    numEmpty g = 0 := by
  unfold numEmpty
  rw [List.length_eq_zero, List.filter_eq_nil_iff]
  intro p hp
  unfold find_empty at h
  simpa using List.find?_eq_none.mp h p hp

lemma solve_grid_of_none (shuf : Nat → List Nat) (g : Grid)
    (hfe : find_empty g = none) : solve_grid shuf g = (true, g) := by
  unfold solve_grid
  rw [show (37 : Nat) = 36 + 1 from rfl]
  simp [solveAux, hfe]

/-- Everything the claims need about a solver run from the empty grid,
under the assumption that every shuffle offers exactly the values
`1..6`. -/
lemma solve_empty_spec (shuf : Nat → List Nat)
    (Hs : ∀ k v, v ∈ shuf k ↔ 1 ≤ v ∧ v ≤ 6) :
    (solve_grid shuf zeroGrid).1 = true ∧
    numEmpty (solve_grid shuf zeroGrid).2 = 0 ∧
    fullyValid (solve_grid shuf zeroGrid).2 := by
  have Hmem : ∀ k v, 1 ≤ v → v ≤ 6 → v ∈ shuf k :=
    fun k v h1 h6 => (Hs k v).mpr ⟨h1, h6⟩
  have H6 : ∀ k v, v ∈ shuf k → v ≤ 6 := fun k v h => ((Hs k v).mp h).2
  have hsolv : validSoFar solGrid := by decide
  have hsolb0 : ∀ i, i < 6 → ∀ j, j < 6 → 1 ≤ solGrid i j ∧ solGrid i j ≤ 6 := by decide
  have hsolb : ∀ i j, i < 6 → j < 6 → 1 ≤ solGrid i j ∧ solGrid i j ≤ 6 :=
    fun i j hi hj => hsolb0 i hi j hj
  have hext : ∀ i j, zeroGrid i j ≠ 0 → solGrid i j = zeroGrid i j :=
    fun i j h => absurd rfl h
  have hfuel : numEmpty zeroGrid < 37 := by decide
  have htrue : (solveAux shuf 37 0 zeroGrid).1 = true :=
    solveAux_complete shuf solGrid hsolv hsolb Hmem 37 0 zeroGrid hext hfuel
  have hspec := solveAux_spec shuf 37 0 zeroGrid
  have hnone : find_empty (solveAux shuf 37 0 zeroGrid).2.1 = none :=
    hspec.2.2.2 htrue
  have hnz : ∀ i j, i < 6 → j < 6 → (solveAux shuf 37 0 zeroGrid).2.1 i j ≠ 0 :=
    (find_empty_none _).mp hnone
  have hle : ∀ i j, (solveAux shuf 37 0 zeroGrid).2.1 i j ≤ 6 :=
    solveAux_le6 shuf H6 37 0 zeroGrid (fun i j => Nat.zero_le 6)
  have hvalid : validSoFar (solveAux shuf 37 0 zeroGrid).2.1 :=
    hspec.2.2.1 (by decide)
  exact ⟨htrue, numEmpty_zero_of_none _ hnone,
    fullyValid_of _ hvalid hnz (fun i j _ _ => hle i j)⟩

/-! ## The claims -/

/-- Claim C1: for every run of the Solver from the all-zero 6x6 grid
(the shuffle stream offering exactly the values 1..6, as
`random.shuffle` of `[1..6]` does), `solve_grid` returns true and the
resulting grid is fully valid: every row, column, and 2x3 box contains
each value 1..6 exactly once. -/
theorem C1_solver_from_empty (shuf : Nat → List Nat)
    (Hs : ∀ k v, v ∈ shuf k ↔ 1 ≤ v ∧ v ≤ 6) :
    (solve_grid shuf zeroGrid).1 = true ∧
    fullyValid (solve_grid shuf zeroGrid).2 :=
  ⟨(solve_empty_spec shuf Hs).1, (solve_empty_spec shuf Hs).2.2⟩

/-- Witness for C1 at the identity candidate order. -/
theorem C1_witness :
    (solve_grid shuf0 zeroGrid).1 = true ∧
    fullyValid (solve_grid shuf0 zeroGrid).2 :=
  C1_solver_from_empty shuf0 (by
    intro k v
    simp only [shuf0, List.mem_cons, List.not_mem_nil, or_false]
    omega)

/-- Claim C2: for every difficulty, the number of cells the Carver
clears satisfies `0 ≤ cells_removed ≤ target`, and the number of zero
cells of the returned puzzle equals `cells_removed`. -/
theorem C2_carving_bound (shuf : Nat → List Nat) (pick : Nat → Nat × Nat)
    (d : String) (Hs : ∀ k v, v ∈ shuf k ↔ 1 ≤ v ∧ v ≤ 6)
    (Hpick : ∀ k, (pick k).1 < 6 ∧ (pick k).2 < 6) :
    0 ≤ (generate_puzzle shuf pick d).2.2.1 ∧
    (generate_puzzle shuf pick d).2.2.1 ≤ (DIFFICULTY_LEVELS d).getD 18 ∧
    numEmpty (generate_puzzle shuf pick d).1 = (generate_puzzle shuf pick d).2.2.1 := by
  refine ⟨Nat.zero_le _, ?_, ?_⟩
  · exact carveLoop_removed_le pick ((DIFFICULTY_LEVELS d).getD 18) 1000 0 0
      (solve_grid shuf zeroGrid).2 (Nat.zero_le _)
  · exact carveLoop_zeros pick ((DIFFICULTY_LEVELS d).getD 18) Hpick 1000 0 0
      (solve_grid shuf zeroGrid).2 (solve_empty_spec shuf Hs).2.1

/-- Witness for C2 at difficulty Medium with concrete streams. -/
theorem C2_witness :
    0 ≤ (generate_puzzle shuf0 pick0 "Medium").2.2.1 ∧
    (generate_puzzle shuf0 pick0 "Medium").2.2.1 ≤
      (DIFFICULTY_LEVELS "Medium").getD 18 ∧
    numEmpty (generate_puzzle shuf0 pick0 "Medium").1 =
      (generate_puzzle shuf0 pick0 "Medium").2.2.1 :=
  C2_carving_bound shuf0 pick0 "Medium"
    (by
      intro k v
      simp only [shuf0, List.mem_cons, List.not_mem_nil, or_false]
      omega)
    (fun k => ⟨by simp [pick0], by simp [pick0]⟩)

/-- Claim C3: the solution returned by `generate_puzzle` is fully valid,
it is the untouched grid produced by the Solver, and the puzzle differs
from it exactly at the zeroed cells (every non-zero puzzle cell equals
the corresponding solution cell). -/
theorem C3_solution_preserved (shuf : Nat → List Nat) (pick : Nat → Nat × Nat)
    (d : String) (Hs : ∀ k v, v ∈ shuf k ↔ 1 ≤ v ∧ v ≤ 6) :
    fullyValid (generate_puzzle shuf pick d).2.1 ∧
    (generate_puzzle shuf pick d).2.1 = (solve_grid shuf zeroGrid).2 ∧
    (∀ i j, (generate_puzzle shuf pick d).1 i j ≠ 0 →
      (generate_puzzle shuf pick d).1 i j = (generate_puzzle shuf pick d).2.1 i j) ∧
    (∀ i j, (generate_puzzle shuf pick d).1 i j =
        (generate_puzzle shuf pick d).2.1 i j ∨
      (generate_puzzle shuf pick d).1 i j = 0) := by
  have hkeep := carveLoop_keep pick ((DIFFICULTY_LEVELS d).getD 18) 1000 0 0
    (solve_grid shuf zeroGrid).2
  refine ⟨(solve_empty_spec shuf Hs).2.2, rfl, ?_, hkeep⟩
  intro i j hnz
  rcases hkeep i j with h | h
  · exact h
  · exact absurd h hnz

/-- Witness for C3 at difficulty Medium with concrete streams. -/
theorem C3_witness :
    fullyValid (generate_puzzle shuf0 pick0 "Medium").2.1 ∧
    (generate_puzzle shuf0 pick0 "Medium").2.1 = (solve_grid shuf0 zeroGrid).2 :=
  ⟨(C3_solution_preserved shuf0 pick0 "Medium" (by
      intro k v
      simp only [shuf0, List.mem_cons, List.not_mem_nil, or_false]
      omega)).1,
   (C3_solution_preserved shuf0 pick0 "Medium" (by
      intro k v
      simp only [shuf0, List.mem_cons, List.not_mem_nil, or_false]
      omega)).2.1⟩

/-- Claim C4: for every grid, in-range cell `(r, c)` and candidate
`num` in 1..6, `is_safe` returns false iff `num` already appears in row
`r`, in column `c`, or in the 2x3 box whose origin is
`(2 * (r / 2), 3 * (c / 3))`; it returns true otherwise. -/
theorem C4_is_safe_iff (g : Grid) (r c num : Nat) (_hr : r < 6) (_hc : c < 6)
    (_h1 : 1 ≤ num) (_h6 : num ≤ 6) :
    is_safe g r c num = false ↔
      (∃ j, j < 6 ∧ g r j = num) ∨ (∃ i, i < 6 ∧ g i c = num) ∨
      (∃ di dj, di < 2 ∧ dj < 3 ∧
        g (2 * (r / 2) + di) (3 * (c / 3) + dj) = num) :=
  is_safe_false_iff g r c num

/-- Witness for C4: in `badGrid`, 6 already appears in column 3, so
placing 6 at (0, 3) is rejected. -/
theorem C4_witness :
    is_safe badGrid 0 3 6 = false ↔
      (∃ j, j < 6 ∧ badGrid 0 j = 6) ∨ (∃ i, i < 6 ∧ badGrid i 3 = 6) ∨
      (∃ di dj, di < 2 ∧ dj < 3 ∧
        badGrid (2 * (0 / 2) + di) (3 * (3 / 3) + dj) = 6) :=
  C4_is_safe_iff badGrid 0 3 6 (by decide) (by decide) (by decide) (by decide)

/-- Claim C5: `generate_puzzle` maps "Medium" to a blank target of 18
and "Hard" to 22, and any unrecognized difficulty behaves identically
to "Medium" (default target 18) instead of failing. -/
theorem C5_difficulty_default (shuf : Nat → List Nat) (pick : Nat → Nat × Nat) :
    DIFFICULTY_LEVELS "Medium" = some 18 ∧
    DIFFICULTY_LEVELS "Hard" = some 22 ∧
    ∀ d, d ≠ "Medium" → d ≠ "Hard" →
      (DIFFICULTY_LEVELS d).getD 18 = 18 ∧
      generate_puzzle shuf pick d = generate_puzzle shuf pick "Medium" := by
  refine ⟨by decide, by decide, ?_⟩
  intro d hm hh
  have hd : DIFFICULTY_LEVELS d = none := by
    unfold DIFFICULTY_LEVELS
    rw [if_neg hm, if_neg hh]
  constructor
  · rw [hd]
    rfl
  · unfold generate_puzzle
    rw [hd]
    rfl

/-- Witness for C5: the unrecognized difficulty "Easy" behaves exactly
like "Medium". -/
theorem C5_witness :
    (DIFFICULTY_LEVELS "Easy").getD 18 = 18 ∧
    generate_puzzle shuf0 pick0 "Easy" = generate_puzzle shuf0 pick0 "Medium" :=
  (C5_difficulty_default shuf0 pick0).2.2 "Easy" (by decide) (by decide)

/-- Claim C6: partial validity is an invariant of both components:
from a partially valid grid, placing a value accepted by `is_safe`,
clearing a cell (the backtracking step of the Solver and the only
write of the Carver), a whole solver run, and a whole carving run all yield a
partially valid grid. -/
theorem C6_validity_invariant (g : Grid) (hv : validSoFar g) :
    (∀ r c num, is_safe g r c num = true → validSoFar (setCell g r c num)) ∧
    (∀ r c, validSoFar (setCell g r c 0)) ∧
    (∀ shuf fuel k, validSoFar (solveAux shuf fuel k g).2.1) ∧
    (∀ pick target fuel attempts removed,
      validSoFar (carveLoop pick target fuel attempts removed g).1) :=
  ⟨fun r c num hs => valid_place g r c num hv hs,
   fun r c => valid_clear g r c hv,
   fun shuf fuel k => (solveAux_spec shuf fuel k g).2.2.1 hv,
   fun pick target fuel attempts removed =>
     carveLoop_valid pick target fuel attempts removed g hv⟩

/-- Witness for C6 at the all-zero grid. -/
theorem C6_witness : validSoFar (setCell zeroGrid 2 3 0) :=
  (C6_validity_invariant zeroGrid (by decide)).2.1 2 3

/-- Claim C7: the carving loop runs at most 1000 iterations, stops as
soon as `cells_removed` reaches the target or the budget is exhausted,
and in the latter case `generate_puzzle` still returns normally with at
most the requested number of blanks. -/
theorem C7_carver_terminates (shuf : Nat → List Nat) (pick : Nat → Nat × Nat)
    (d : String) :
    (generate_puzzle shuf pick d).2.2.2 ≤ 1000 ∧
    ((generate_puzzle shuf pick d).2.2.1 = (DIFFICULTY_LEVELS d).getD 18 ∨
      (generate_puzzle shuf pick d).2.2.2 = 1000) ∧
    (generate_puzzle shuf pick d).2.2.1 ≤ (DIFFICULTY_LEVELS d).getD 18 := by
  have h1 := carveLoop_attempts_le pick ((DIFFICULTY_LEVELS d).getD 18) 1000 0 0
    (solve_grid shuf zeroGrid).2
  have h2 := carveLoop_stop pick ((DIFFICULTY_LEVELS d).getD 18) 1000 0 0
    (solve_grid shuf zeroGrid).2 (Nat.zero_le _)
  have h3 := carveLoop_removed_le pick ((DIFFICULTY_LEVELS d).getD 18) 1000 0 0
    (solve_grid shuf zeroGrid).2 (Nat.zero_le _)
  have e1 : (generate_puzzle shuf pick d).2.2.2 =
      (carveLoop pick ((DIFFICULTY_LEVELS d).getD 18) 1000 0 0
        (solve_grid shuf zeroGrid).2).2.2 := rfl
  have e2 : (generate_puzzle shuf pick d).2.2.1 =
      (carveLoop pick ((DIFFICULTY_LEVELS d).getD 18) 1000 0 0
        (solve_grid shuf zeroGrid).2).2.1 := rfl
  rw [e1, e2]
  exact ⟨by omega, by omega, h3⟩

/-- Claim C8: `find_empty` returns the first zero cell in row-major
order, or none when no cell is empty, and on a grid with no empty cell
`solve_grid` succeeds immediately without modifying the grid. -/
theorem C8_find_empty_first (g : Grid) (shuf : Nat → List Nat) :
    (∀ r c, find_empty g = some (r, c) ↔
      (r < 6 ∧ c < 6 ∧ g r c = 0 ∧
        ∀ i j, i < 6 → j < 6 → (i < r ∨ (i = r ∧ j < c)) → g i j ≠ 0)) ∧
    (find_empty g = none ↔ ∀ i j, i < 6 → j < 6 → g i j ≠ 0) ∧
    (find_empty g = none →
      (solve_grid shuf g).1 = true ∧ ∀ i j, (solve_grid shuf g).2 i j = g i j) := by
  refine ⟨?_, find_empty_none g, ?_⟩
  · intro r c
    constructor
    · exact find_empty_some_spec g r c
    · rintro ⟨hr, hc, h0, hmin⟩
      cases hfe : find_empty g with
      | none => exact absurd h0 (by simpa using (find_empty_none g).mp hfe r c hr hc)
      | some rc =>
        obtain ⟨r2, c2⟩ := rc
        obtain ⟨hr2, hc2, h02, hmin2⟩ := find_empty_some_spec g r2 c2 hfe
        have h3 : ¬(r2 < r ∨ (r2 = r ∧ c2 < c)) := fun hlt => hmin r2 c2 hr2 hc2 hlt h02
        have h4 : ¬(r < r2 ∨ (r = r2 ∧ c < c2)) := fun hlt => hmin2 r c hr hc hlt h0
        have h5 : r2 = r ∧ c2 = c := by omega
        rw [h5.1, h5.2]
  · intro hfe
    rw [solve_grid_of_none shuf g hfe]
    exact ⟨rfl, fun i j => rfl⟩

/-- Witness for C8: the first empty cell of the all-zero grid is
`(0, 0)`, and on the full grid `solGrid` the solver succeeds at once. -/
theorem C8_witness :
    zeroGrid 0 0 = 0 ∧ (solve_grid shuf0 solGrid).1 = true :=
  ⟨(((C8_find_empty_first zeroGrid shuf0).1 0 0).mp (by decide)).2.2.1,
   ((C8_find_empty_first solGrid shuf0).2.2 (by decide)).1⟩

/-- Claim C9: failure atomicity of the Solver: whenever `solve_grid`
returns false, the grid is exactly the grid it was called on, cell for
cell. -/
theorem C9_failure_restores (shuf : Nat → List Nat) (g : Grid)
    (hfail : (solve_grid shuf g).1 = false) :
    ∀ i j, (solve_grid shuf g).2 i j = g i j := by
  have h := (solveAux_spec shuf 37 0 g).1 hfail
  intro i j
  rw [show (solve_grid shuf g).2 = (solveAux shuf 37 0 g).2.1 from rfl, h]

set_option maxRecDepth 40000 in
/-- Witness for C9 on a grid whose first empty cell admits no value. -/
theorem C9_witness :
    (solve_grid shuf0 badGrid).1 = false ∧
    (solve_grid shuf0 badGrid).2 2 2 = badGrid 2 2 :=
  ⟨by decide, C9_failure_restores shuf0 badGrid (by decide) 2 2⟩

/-- Claim C10: the Solver never overwrites given cells: every cell
holding a non-zero value when `solve_grid` is called holds the same
value when it returns, whether it returns true or false. -/
theorem C10_preserves_given (shuf : Nat → List Nat) (g : Grid) (i j : Nat)
    (h : g i j ≠ 0) : (solve_grid shuf g).2 i j = g i j :=
  (solveAux_spec shuf 37 0 g).2.1 i j h

set_option maxRecDepth 40000 in
/-- Witness for C10 at a non-zero given cell of `badGrid`. -/
theorem C10_witness :
    badGrid 0 0 ≠ 0 ∧ (solve_grid shuf0 badGrid).2 0 0 = badGrid 0 0 :=
  ⟨by decide, C10_preserves_given shuf0 badGrid 0 0 (by decide)⟩

end Sudoku6
